import Mathlib

/-!
# Verification of the translation-memory-backed segment pipeline

A shallow embedding, in Lean 4, of the core components of the Perevodik
web-novel translation pipeline:

* `tools/chapter_splitter.py`   — line-preserving segmentation
* `tools/context_manager.py`    — translation-memory store (file backend)
* `tools/chapter_validator.py`  — chapter validation and quality scoring
* `tools/chapter_translator.py` — segment resolution and post-processing
* `tools/character_detector.py` — character classification
* `tools/async_deepl_translator.py` — batched external translate capability

Python strings are modelled as `List Char` (one entry per Unicode code
point, matching Python's `len` and indexing on `str`).  Python `float`
score arithmetic is modelled with `ℚ`; all score constants in the source
are decimal literals, and no statement below depends on binary rounding of
IEEE floats.  Wall-clock timestamps (`datetime.now()`) are abstracted:
either omitted (they are write-only metadata) or passed in as an explicit
`now` parameter.  Fallible external calls are modelled with `Except` or
sum types.
-/

set_option maxRecDepth 8000

/- Batteries marks the rational-number operations irreducible for the
elaborator; concrete score evaluations below need them to reduce. -/
set_option allowUnsafeReducibility true
attribute [local semireducible] Rat.add Rat.mul Rat.inv Rat.sub Rat.div

/-- A Python string, modelled as its list of Unicode code points. -/
abbrev PyStr := List Char

/-- The code points of a Lean string literal, used to write concrete inputs. -/
def chars (s : String) : PyStr := s.data

/-- Test whether the first argument is an initial run of the second. -/
def startsWithChars : PyStr → PyStr → Bool
  | [], _ => true
  | _ :: _, [] => false
  | p :: ps, c :: cs => p == c && startsWithChars ps cs

/-- Python's substring containment test (contiguous, case-sensitive),
written `pat in s` in the source. -/
def occursIn (pat : PyStr) : PyStr → Bool
  | [] => startsWithChars pat []
  | c :: cs => startsWithChars pat (c :: cs) || occursIn pat cs

/-- Python's whitespace set, as used by `str.strip` and `str.split` with no
argument: the code points for which `str.isspace` holds.  All texts in the
repository's pattern tables use only the ASCII ones. -/
def isPyWs (c : Char) : Bool :=
  c == ' ' || c == '\t' || c == '\n' || c == '\r' ||
  c == '\x0b' || c == '\x0c' ||
  c == '\x1c' || c == '\x1d' || c == '\x1e' || c == '\x1f' ||
  c == '\x85' || c == '\xa0' ||
  c == ' ' ||
  (' ' ≤ c && c ≤ ' ') ||
  c == ' ' || c == ' ' || c == ' ' || c == ' ' ||
  c == '　'

/-- Python `str.strip()`: drop whitespace from both ends. -/
def pyStrip (s : PyStr) : PyStr :=
  ((s.dropWhile isPyWs).reverse.dropWhile isPyWs).reverse

/-- Auxiliary for `pySplitWs`; the accumulator holds the current word
reversed. -/
def pySplitWsAux : PyStr → PyStr → List PyStr
  | [], acc => if acc.isEmpty then [] else [acc.reverse]
  | c :: cs, acc =>
    if isPyWs c then
      if acc.isEmpty then pySplitWsAux cs [] else acc.reverse :: pySplitWsAux cs []
    else pySplitWsAux cs (c :: acc)

/-- Python `str.split()` with no argument: split on runs of whitespace,
producing no empty words. -/
def pySplitWs (s : PyStr) : List PyStr := pySplitWsAux s []

/-- Python `str.lower()` restricted to the scripts that occur in the
repository's pattern tables: ASCII and the Cyrillic range `А`–`Я` plus
`Ё`.  Other code points are left unchanged. -/
def pyLowerChar (c : Char) : Char :=
  if 'A' ≤ c ∧ c ≤ 'Z' then Char.ofNat (c.toNat + 32)
  else if 'А' ≤ c ∧ c ≤ 'Я' then Char.ofNat (c.toNat + 32)
  else if c = 'Ё' then 'ё'
  else c

/-- Python `str.lower()` (see `pyLowerChar`). -/
def pyLower (s : PyStr) : PyStr := s.map pyLowerChar

/-- Python `text.split('\n')`: the empty string yields one empty line, and
separators at the ends produce empty lines. -/
def splitOnNl : PyStr → List PyStr
  | [] => [[]]
  | c :: cs =>
    if c = '\n' then [] :: splitOnNl cs
    else
      match splitOnNl cs with
      | [] => [[c]]
      | l :: ls => (c :: l) :: ls

/-- Joining with a newline separator: the inverse of `splitOnNl`. -/
def joinNl : List PyStr → PyStr
  | [] => []
  | l :: ls =>
    match ls with
    | [] => l
    | _ :: _ => l ++ '\n' :: joinNl ls

/-- Python `line.rstrip('\r')`: drop all trailing carriage returns. -/
def rstripCr (s : PyStr) : PyStr :=
  (s.reverse.dropWhile (· == '\r')).reverse

/-- Python single-character count `s.count(c)`. -/
def countCh (c : Char) (s : PyStr) : Nat := (s.filter (· == c)).length

/-- Worker for `pyReplace` on a non-empty needle: replace non-overlapping
occurrences left to right, as Python `str.replace` does. -/
def pyReplaceGo (old new : PyStr) : PyStr → PyStr
  | [] => []
  | c :: cs =>
    if startsWithChars old (c :: cs) then
      new ++ pyReplaceGo old new (cs.drop (old.length - 1))
    else c :: pyReplaceGo old new cs
  termination_by s => s.length
  decreasing_by
    all_goals simp only [List.length_cons, List.length_drop]
    all_goals omega

/-- Python `s.replace(old, new)`, including the empty-needle behaviour. -/
def pyReplace (s old new : PyStr) : PyStr :=
  if old.isEmpty then new ++ (s.map (fun c => c :: new)).flatten
  else pyReplaceGo old new s

/-- Number of non-overlapping matches scanned left to right, as
`re.finditer(re.escape(pat), s)` yields for a non-empty literal pattern. -/
def countOcc (pat : PyStr) : PyStr → Nat
  | [] => 0
  | c :: cs =>
    if startsWithChars pat (c :: cs) then
      1 + countOcc pat (cs.drop (pat.length - 1))
    else countOcc pat cs
  termination_by s => s.length
  decreasing_by
    all_goals simp only [List.length_cons, List.length_drop]
    all_goals omega

/-- First value of an association list under the given key, modelling
Python `dict` lookup with insertion order preserved. -/
def lookupA {β : Type} (l : List (PyStr × β)) (k : PyStr) : Option β :=
  (l.find? (fun p => p.1 == k)).map (·.2)

/-! ## Segmenter: `tools/chapter_splitter.py` -/

/-- Values taken by the `segment_type` field of `TextSegment`. -/
inductive SegKind where
  | empty_line
  | dialogue
  | system
  | description
deriving DecidableEq, Repr

/-- Embedding of the `TextSegment` dataclass of `chapter_splitter.py`. -/
structure TextSegment where
  content : PyStr
  segment_type : SegKind
  line_number : Nat
  character : Option PyStr := none
  is_dialogue : Bool := false
  is_system : Bool := false
deriving DecidableEq, Repr

/-- Source regex: a double-quoted span.  A search for it succeeds iff the
line holds at least two double-quote characters. -/
def hasQuotePair (line : PyStr) : Bool := 2 ≤ countCh '"' line

/-- Source regex: a guillemet span.  A search for it succeeds iff some
opening guillemet is followed, later in the line, by a closing one. -/
def hasGuillemetPair : PyStr → Bool
  | [] => false
  | c :: cs => if c = '«' then cs.contains '»' else hasGuillemetPair cs

/-- Source regex: an em-dash span.  A search for it succeeds iff the line
holds at least two em-dashes. -/
def hasEmDashPair (line : PyStr) : Bool := 2 ≤ countCh '—' line

/-- Embedding of `ChapterSplitter._is_dialogue`: search over the three
`dialogue_patterns` regexes. -/
def isDialogueLine (line : PyStr) : Bool :=
  hasQuotePair line || hasGuillemetPair line || hasEmDashPair line

/-- Embedding of `ChapterSplitter.system_patterns`: each regex is a literal
followed by a trailing wildcard, so a search succeeds iff the literal
occurs in the line. -/
def splitterSystemMarkers : List PyStr :=
  [chars "Динь!", chars "Система", chars "Оповещение",
   chars "Получено", chars "Награда"]

/-- Embedding of `ChapterSplitter._is_system`. -/
def isSystemLine (line : PyStr) : Bool :=
  splitterSystemMarkers.any (fun p => occursIn p line)

/-- Embedding of `ChapterSplitter.character_indicators`. -/
def characterIndicators : List PyStr :=
  [chars "Цзян Чэнь", chars "Jiang Chen",
   chars "Е Цинчэн", chars "Ye Qingcheng",
   chars "Ду Гуюнь", chars "Du Guyun",
   chars "Старейшина", chars "Elder"]

/-- Embedding of `ChapterSplitter._detect_character`: first indicator
contained in the line (case-sensitive), else none. -/
def detectCharacterIndicator (line : PyStr) : Option PyStr :=
  characterIndicators.find? (fun ind => occursIn ind line)

/-- Embedding of `ChapterSplitter._detect_segment_type` (the blank case is
unreachable from `split_by_lines` but kept for fidelity). -/
def detectSegmentType (line : PyStr) : SegKind :=
  if (pyStrip line).isEmpty then .empty_line
  else if isDialogueLine line then .dialogue
  else if isSystemLine line then .system
  else .description

/-- One iteration of the loop in `ChapterSplitter.split_by_lines`, with `i`
the 1-based line number. -/
def mkLineSegment (i : Nat) (line : PyStr) : TextSegment :=
  let l := rstripCr line
  if (pyStrip l).isEmpty || l == ['\n'] then
    { content := [], segment_type := .empty_line, line_number := i }
  else
    { content := l
      segment_type := detectSegmentType l
      line_number := i
      character := detectCharacterIndicator l
      is_dialogue := isDialogueLine l
      is_system := isSystemLine l }

/-- Embedding of `ChapterSplitter.split_by_lines`. -/
def splitByLines (text : PyStr) : List TextSegment :=
  (splitOnNl text).enum.map (fun p => mkLineSegment (p.1 + 1) p.2)

/-- Emission of one segment during reassembly: an empty-line segment
becomes a literal blank line, every other segment its content. -/
def emitSeg (s : TextSegment) : PyStr :=
  match s.segment_type with
  | .empty_line => []
  | _ => s.content

/-- Reassembly as described by the specification: emit each segment via
`emitSeg`, joining in source order with newlines. -/
def reassemble (segs : List TextSegment) : PyStr :=
  joinNl (segs.map emitSeg)

/-! ### Round-trip lemmas for C1 -/

theorem splitOnNl_ne_nil (s : PyStr) : splitOnNl s ≠ [] := by
  cases s with
  | nil => simp [splitOnNl]
  | cons c cs =>
    by_cases h : c = '\n'
    · simp [splitOnNl, h]
    · simp only [splitOnNl, if_neg h]
      cases hs : splitOnNl cs <;> simp

theorem joinNl_splitOnNl (s : PyStr) : joinNl (splitOnNl s) = s := by
  induction s with
  | nil => rfl
  | cons c cs ih =>
    by_cases h : c = '\n'
    · subst h
      have hsplit : splitOnNl ('\n' :: cs) = [] :: splitOnNl cs := rfl
      rw [hsplit]
      obtain ⟨l, ls, hs⟩ : ∃ l ls, splitOnNl cs = l :: ls := by
        cases hls : splitOnNl cs with
        | nil => exact absurd hls (splitOnNl_ne_nil cs)
        | cons a as => exact ⟨a, as, rfl⟩
      rw [hs] at ih
      rw [hs]
      have hstep : joinNl ([] :: l :: ls) = '\n' :: joinNl (l :: ls) := rfl
      rw [hstep, ih]
    · simp only [splitOnNl, if_neg h]
      cases hs : splitOnNl cs with
      | nil => exact absurd hs (splitOnNl_ne_nil cs)
      | cons l ls =>
        rw [hs] at ih
        cases ls with
        | nil =>
          have hstep : joinNl [c :: l] = c :: joinNl [l] := rfl
          rw [hstep, ih]
        | cons l2 ls2 =>
          have hstep : joinNl ((c :: l) :: l2 :: ls2) =
              c :: joinNl (l :: l2 :: ls2) := rfl
          rw [hstep, ih]

theorem dropWhile_eq_self_of {p : Char → Bool} :
    ∀ {l : PyStr}, (∀ x ∈ l, p x = false) → l.dropWhile p = l
  | [], _ => rfl
  | c :: cs, h => by
    have hc := h c (by simp)
    simp [List.dropWhile, hc]

theorem rstripCr_of_not_mem {line : PyStr} (h : '\r' ∉ line) :
    rstripCr line = line := by
  unfold rstripCr
  rw [dropWhile_eq_self_of, List.reverse_reverse]
  intro x hx
  rw [List.mem_reverse] at hx
  have : x ≠ '\r' := fun he => h (he ▸ hx)
  simpa using this

theorem enumFrom_map_eq {α : Type} (g : Nat × α → α) :
    ∀ (n : Nat) (l : List α), (∀ i x, x ∈ l → g (i, x) = x) →
      (List.enumFrom n l).map g = l := by
  intro n l
  induction l generalizing n with
  | nil => intro _; rfl
  | cons a as ih =>
    intro h
    simp only [List.enumFrom, List.map_cons]
    rw [h n a (by simp), ih (n + 1) (fun i x hx => h i x (by simp [hx]))]

theorem emitSeg_mkLineSegment (i : Nat) (line : PyStr)
    (hcr : '\r' ∉ line) (hws : (pyStrip line).isEmpty = true → line = []) :
    emitSeg (mkLineSegment i line) = line := by
  simp only [mkLineSegment, rstripCr_of_not_mem hcr]
  by_cases hb : ((pyStrip line).isEmpty || line == ['\n']) = true
  · rw [if_pos hb]
    have hline : line = [] := by
      rcases Bool.or_eq_true_iff.mp hb with h1 | h1
      · exact hws h1
      · have hl : line = ['\n'] := by simpa using h1
        subst hl
        exact hws (by decide)
    subst hline
    rfl
  · rw [if_neg hb]
    have hne : (pyStrip line).isEmpty = false := by
      cases hh : (pyStrip line).isEmpty
      · rfl
      · exact absurd (by simp [hh]) hb
    simp only [emitSeg, detectSegmentType, hne, Bool.false_eq_true, if_false]
    by_cases hd : isDialogueLine line = true <;>
      by_cases hsy : isSystemLine line = true <;>
      simp [hd, hsy]

/-- C1: the claim as stated is false — a line made only of whitespace is
turned into an empty-line segment whose content is lost, so reassembling
does not reconstruct a single-space text byte-for-byte. -/
theorem C1_roundtrip_counterexample :
    reassemble (splitByLines (chars " ")) ≠ chars " " := by decide

/-- C1 (amended): for every chapter text whose lines contain no carriage
return and in which every whitespace-only line is in fact empty,
segmenting in line-preserving mode and reassembling the segments in source
order reconstructs the text byte-for-byte.  (The source strips trailing
carriage returns and collapses whitespace-only lines to empty segments,
which is exactly what the two hypotheses exclude.) -/
theorem C1_line_roundtrip (text : PyStr)
    (h : ∀ line ∈ splitOnNl text,
      '\r' ∉ line ∧ ((pyStrip line).isEmpty = true → line = [])) :
    reassemble (splitByLines text) = text := by
  unfold reassemble splitByLines
  rw [List.map_map]
  have hmap : (List.enumFrom 0 (splitOnNl text)).map
      (emitSeg ∘ fun p => mkLineSegment (p.1 + 1) p.2) = splitOnNl text := by
    apply enumFrom_map_eq
    intro i x hx
    exact emitSeg_mkLineSegment (i + 1) x (h x hx).1 (h x hx).2
  rw [show (splitOnNl text).enum = List.enumFrom 0 (splitOnNl text) from rfl]
  rw [hmap]
  exact joinNl_splitOnNl text

/-- Witness for C1: the amended round-trip applied to a concrete chapter
text with a blank line. -/
theorem C1_line_roundtrip_witness :
    (∀ line ∈ splitOnNl (chars "Line one\n\nLine two"),
      '\r' ∉ line ∧ ((pyStrip line).isEmpty = true → line = [])) ∧
    reassemble (splitByLines (chars "Line one\n\nLine two")) =
      chars "Line one\n\nLine two" :=
  ⟨by decide, C1_line_roundtrip _ (by decide)⟩

/-! ## Translation Memory Store: `tools/context_manager.py` (file backend)

The `TranslationMemoryManager` file-system backend keeps its records as a
JSON list.  `datetime.now().isoformat()` is passed in as an explicit `now`
parameter; the MD5 id of the string built from source text and chapter is
modelled by that string itself (a collision-free idealisation of the
hash). -/

/-- Embedding of the `TranslationMemory` dataclass of `context_manager.py`. -/
structure TranslationMemoryInput where
  source_text : PyStr
  target_text : PyStr
  chapter : PyStr
  character : Option PyStr := none
  context : Option PyStr := none
  quality_score : Option ℚ := none
  timestamp : Option PyStr := none
deriving DecidableEq, Repr

/-- Deterministic record identifier: the source computes
`md5(f"{source_text}_{chapter}")`; the hash is modelled by its preimage. -/
def memoryId (s c : PyStr) : PyStr := s ++ '_' :: c

/-- One stored record of the file backend (`translation_data` dict). -/
structure StoredRec where
  id : PyStr
  source_text : PyStr
  target_text : PyStr
  chapter : PyStr
  character : Option PyStr
  context : Option PyStr
  quality_score : Option ℚ
  timestamp : PyStr
deriving DecidableEq, Repr

/-- Embedding of `TranslationMemoryManager._add_to_file_system`: read the
list, append a fresh record, write it back, and return the id. -/
def addToFileSystem (store : List StoredRec) (m : TranslationMemoryInput)
    (now : PyStr) : List StoredRec × PyStr :=
  let mid := memoryId m.source_text m.chapter
  (store ++ [{ id := mid
               source_text := m.source_text
               target_text := m.target_text
               chapter := m.chapter
               character := m.character
               context := m.context
               quality_score := m.quality_score
               timestamp := m.timestamp.getD now }], mid)

/-- Records of the store keyed by a given source text and chapter. -/
def recordsForKey (store : List StoredRec) (s c : PyStr) : List StoredRec :=
  store.filter (fun r => r.source_text == s && r.chapter == c)

/-- C2: the claim as stated is false — inserting (source, target, chapter)
twice with different targets leaves TWO records under the key, because the
file backend appends unconditionally; here the concrete double insert of
key ("a", "ch") yields two records, not one. -/
theorem C2_insert_counterexample :
    (recordsForKey
      (addToFileSystem
        (addToFileSystem [] ⟨chars "a", chars "x", chars "ch",
          none, none, none, none⟩ (chars "t1")).1
        ⟨chars "a", chars "y", chars "ch", none, none, none, none⟩
        (chars "t2")).1
      (chars "a") (chars "ch")).length ≠ 1 := by decide

/-- C2 (amended): inserting (s, t1, c) and then (s, t2, c) appends two
records; both carry the same deterministic id derived from (s, c), the
records for key (s, c) grow by exactly those two records in insertion
order, and the last record under the key holds target text t2 (so a
last-record read sees t2, but the earlier record is not overwritten). -/
theorem C2_insert_appends (store : List StoredRec)
    (s t1 t2 c now1 now2 : PyStr) (ch1 ch2 cx1 cx2 : Option PyStr)
    (q1 q2 : Option ℚ) :
    (addToFileSystem
        (addToFileSystem store ⟨s, t1, c, ch1, cx1, q1, none⟩ now1).1
        ⟨s, t2, c, ch2, cx2, q2, none⟩ now2).1 =
      store ++
        [{ id := memoryId s c, source_text := s, target_text := t1,
           chapter := c, character := ch1, context := cx1,
           quality_score := q1, timestamp := now1 },
         { id := memoryId s c, source_text := s, target_text := t2,
           chapter := c, character := ch2, context := cx2,
           quality_score := q2, timestamp := now2 }] ∧
    recordsForKey
        (addToFileSystem
          (addToFileSystem store ⟨s, t1, c, ch1, cx1, q1, none⟩ now1).1
          ⟨s, t2, c, ch2, cx2, q2, none⟩ now2).1 s c =
      recordsForKey store s c ++
        [{ id := memoryId s c, source_text := s, target_text := t1,
           chapter := c, character := ch1, context := cx1,
           quality_score := q1, timestamp := now1 },
         { id := memoryId s c, source_text := s, target_text := t2,
           chapter := c, character := ch2, context := cx2,
           quality_score := q2, timestamp := now2 }] := by
  constructor
  · simp [addToFileSystem]
  · simp [addToFileSystem, recordsForKey, List.filter_append]

/-! ### Token-overlap similarity: `_find_similar_file_system` -/

/-- Token set of a text: `set(text.lower().split())` in the source. -/
def tokensOf (s : PyStr) : Finset PyStr := (pySplitWs (pyLower s)).toFinset

/-- Jaccard index over the two token sets, as the source computes
`len(A & B) / len(A | B)`. -/
def jaccardSim (a b : PyStr) : ℚ :=
  ((tokensOf a ∩ tokensOf b).card : ℚ) / ((tokensOf a ∪ tokensOf b).card : ℚ)

/-- One entry of the list returned by `find_similar` (file backend). -/
structure SimEntry where
  source_text : PyStr
  target_text : PyStr
  chapter : PyStr
  character : PyStr
  similarity : ℚ
  context : PyStr
deriving DecidableEq, Repr

/-- Stable insertion into a similarity-descending list: the new element
goes before the first entry of equal or lower similarity, so
earlier-collected entries of equal similarity stay in front. -/
def insertBySimDesc (x : SimEntry) : List SimEntry → List SimEntry
  | [] => [x]
  | y :: ys =>
    if x.similarity < y.similarity then y :: insertBySimDesc x ys
    else x :: y :: ys

/-- Stable sort by similarity descending; extensionally the list Python's
stable `sort(key=similarity, reverse=True)` produces. -/
def sortBySimDesc : List SimEntry → List SimEntry
  | [] => []
  | x :: xs => insertBySimDesc x (sortBySimDesc xs)

/-- Embedding of `TranslationMemoryManager._find_similar_file_system`:
similarity is computed only when both token sets are non-empty (Python set
truthiness), entries at or above the threshold are collected in store
order, sorted by similarity descending (stable), and truncated to
`max_results`. -/
def findSimilarFileSystem (store : List StoredRec) (text : PyStr)
    (threshold : ℚ) (maxResults : Nat) : List SimEntry :=
  let candidates := store.filterMap (fun item =>
    if tokensOf text ≠ ∅ ∧ tokensOf item.source_text ≠ ∅ then
      let sim := jaccardSim text item.source_text
      if threshold ≤ sim then
        some { source_text := item.source_text
               target_text := item.target_text
               chapter := item.chapter
               character := item.character.getD []
               similarity := sim
               context := item.context.getD [] }
      else none
    else none)
  (sortBySimDesc candidates).take maxResults

theorem mem_insertBySimDesc (x a : SimEntry) :
    ∀ (l : List SimEntry),
      a ∈ insertBySimDesc x l ↔ a = x ∨ a ∈ l := by
  intro l
  induction l with
  | nil => simp [insertBySimDesc]
  | cons y ys ih =>
    simp only [insertBySimDesc]
    by_cases h : x.similarity < y.similarity
    · simp only [h, if_true, List.mem_cons, ih]
      tauto
    · simp only [h, if_false, List.mem_cons]

theorem mem_sortBySimDesc (a : SimEntry) :
    ∀ (l : List SimEntry), a ∈ sortBySimDesc l ↔ a ∈ l := by
  intro l
  induction l with
  | nil => simp [sortBySimDesc]
  | cons y ys ih =>
    simp only [sortBySimDesc, mem_insertBySimDesc, ih, List.mem_cons]

/-- C10: in the file backend the similarity assigned by `find_similar` is
the Jaccard index over lowercased whitespace-token sets: it is symmetric,
depends only on the token sets (so word order and repetition are
irrelevant), lies in the interval zero to one whenever it is assigned
(both token sets non-empty), equals exactly one when the token sets are
equal, and every returned entry carries exactly this similarity, at or
above the requested threshold. -/
theorem C10_find_similar_jaccard :
    (∀ q r, jaccardSim q r = jaccardSim r q) ∧
    (∀ q q' r, tokensOf q = tokensOf q' → jaccardSim q r = jaccardSim q' r) ∧
    (∀ q r, tokensOf q ≠ ∅ → tokensOf r ≠ ∅ →
      0 ≤ jaccardSim q r ∧ jaccardSim q r ≤ 1) ∧
    (∀ q r, tokensOf q = tokensOf r → tokensOf q ≠ ∅ → jaccardSim q r = 1) ∧
    (∀ store text threshold maxResults e,
      e ∈ findSimilarFileSystem store text threshold maxResults →
      e.similarity = jaccardSim text e.source_text ∧
        threshold ≤ e.similarity) := by
  refine ⟨?_, ?_, ?_, ?_, ?_⟩
  · intro q r
    unfold jaccardSim
    rw [Finset.inter_comm, Finset.union_comm]
  · intro q q' r h
    unfold jaccardSim
    rw [h]
  · intro q r hq _hr
    constructor
    · apply div_nonneg <;> positivity
    · have hunion : (0 : ℚ) < ((tokensOf q ∪ tokensOf r).card : ℚ) := by
        have : (tokensOf q ∪ tokensOf r).Nonempty :=
          Finset.Nonempty.mono Finset.subset_union_left
            (Finset.nonempty_iff_ne_empty.mpr hq)
        exact_mod_cast Finset.card_pos.mpr this
      rw [jaccardSim, div_le_one hunion]
      exact_mod_cast Finset.card_le_card Finset.inter_subset_union
  · intro q r h hq
    unfold jaccardSim
    rw [← h, Finset.inter_self, Finset.union_self]
    apply div_self
    have hpos : 0 < (tokensOf q).card :=
      Finset.card_pos.mpr (Finset.nonempty_iff_ne_empty.mpr hq)
    exact_mod_cast Nat.pos_iff_ne_zero.mp hpos
  · intro store text threshold maxResults e he
    unfold findSimilarFileSystem at he
    have hms := List.take_subset maxResults _ he
    rw [mem_sortBySimDesc] at hms
    obtain ⟨item, _hitem, hf⟩ := List.mem_filterMap.mp hms
    by_cases hcond : tokensOf text ≠ ∅ ∧ tokensOf item.source_text ≠ ∅
    · rw [if_pos hcond] at hf
      by_cases hth : threshold ≤ jaccardSim text item.source_text
      · rw [if_pos hth] at hf
        cases hf
        exact ⟨rfl, hth⟩
      · rw [if_neg hth] at hf
        cases hf
    · rw [if_neg hcond] at hf
      cases hf

/-- Witness for C10: a stored text and a reordered, word-duplicated
version of it have equal non-empty token sets and similarity exactly one. -/
theorem C10_find_similar_jaccard_witness :
    tokensOf (chars "Hello world") = tokensOf (chars "world hello hello") ∧
    tokensOf (chars "Hello world") ≠ ∅ ∧
    jaccardSim (chars "Hello world") (chars "world hello hello") = 1 :=
  ⟨by decide, by decide,
    C10_find_similar_jaccard.2.2.2.1 _ _ (by decide) (by decide)⟩

/-! ## Resolver quality score: `ChapterTranslator._calculate_quality_score` -/

/-- Archaism substrings checked by `_calculate_quality_score`. -/
def qsArchaisms : List PyStr :=
  [chars "сей", chars "дабы", chars "ибо", chars "весьма", chars "отнюдь"]

/-- Natural-dialogue markers checked by `_calculate_quality_score`. -/
def qsNaturalPatterns : List PyStr :=
  [chars "Дай мне", chars "Можешь", chars "Хочу", chars "Похоже"]

/-- Embedding of `ChapterTranslator._calculate_quality_score`: base 80,
length penalties (an if/elif chain), then one loop per pattern table, then
clamping. -/
def calculateQualityScore (text : PyStr) : ℚ :=
  let score : ℚ := 80
  let score := if text.length < 10 then score - 20
               else if text.length > 500 then score - 10 else score
  let score := qsArchaisms.foldl
    (fun sc a => if occursIn a (pyLower text) then sc - 5 else sc) score
  let score := qsNaturalPatterns.foldl
    (fun sc p => if occursIn p text then sc + 2 else sc) score
  max 0 (min 100 score)

/-- The quality-score formula in the specification's wording: 80, minus 20
for short output, minus 10 for long output, minus 5 per detected archaism,
plus 2 per detected natural-dialogue marker, clamped to the unit interval
scaled to one hundred. -/
def specQualityScore (text : PyStr) : ℚ :=
  max 0 (min 100
    (80 - (if text.length < 10 then (20 : ℚ) else 0)
        - (if text.length > 500 then (10 : ℚ) else 0)
        - 5 * ((qsArchaisms.filter (fun a => occursIn a (pyLower text))).length : ℚ)
        + 2 * ((qsNaturalPatterns.filter (fun p => occursIn p text)).length : ℚ)))

theorem foldl_sub_count {α : Type} (P : α → Bool) (k : ℚ) :
    ∀ (l : List α) (s : ℚ),
      l.foldl (fun sc a => if P a then sc - k else sc) s =
        s - k * ((l.filter P).length : ℚ) := by
  intro l
  induction l with
  | nil => intro s; simp
  | cons a as ih =>
    intro s
    by_cases h : P a
    · simp only [List.foldl_cons, List.filter_cons, h, if_true, ih,
        List.length_cons]
      push_cast
      ring
    · simp only [List.foldl_cons, List.filter_cons, h, if_false, ih]
      simp [h]

theorem foldl_add_count {α : Type} (P : α → Bool) (k : ℚ) :
    ∀ (l : List α) (s : ℚ),
      l.foldl (fun sc a => if P a then sc + k else sc) s =
        s + k * ((l.filter P).length : ℚ) := by
  intro l
  induction l with
  | nil => intro s; simp
  | cons a as ih =>
    intro s
    by_cases h : P a
    · simp only [List.foldl_cons, List.filter_cons, h, if_true, ih,
        List.length_cons]
      push_cast
      ring
    · simp only [List.foldl_cons, List.filter_cons, h, if_false, ih]
      simp [h]

/-- C4: the resolver's quality score equals the specification's formula and
always lies between zero and one hundred, for texts of any length
including the empty string and texts longer than ten thousand characters. -/
theorem C4_quality_score_formula (text : PyStr) :
    calculateQualityScore text = specQualityScore text ∧
    0 ≤ calculateQualityScore text ∧ calculateQualityScore text ≤ 100 := by
  refine ⟨?_, le_max_left 0 _, max_le (by norm_num) (min_le_left _ _)⟩
  simp only [calculateQualityScore, specQualityScore, foldl_sub_count,
    foldl_add_count]
  have hmm : ∀ x y : ℚ, x = y → max 0 (min 100 x) = max 0 (min 100 y) :=
    fun x y h => by rw [h]
  by_cases h1 : text.length < 10
  · have h2 : ¬ text.length > 500 := by omega
    simp only [h1, h2, if_true, if_false]
    exact hmm _ _ (by ring)
  · by_cases h2 : text.length > 500 <;>
      simp only [h1, h2, if_true, if_false] <;>
      exact hmm _ _ (by ring)

/-! ## Validator: `tools/chapter_validator.py`

Issue records in the source carry a human-readable message, an approximate
line number, a context snippet and a suggestion; these are
presentation-only strings that no control flow reads back, so the
embedding keeps the two fields decisions depend on: the issue type and
the severity.  One issue is emitted per occurrence exactly as in the
source. -/

/-- Severity levels of `ValidationIssue`. -/
inductive Severity where
  | critical
  | high
  | medium
  | low
deriving DecidableEq, Repr

/-- Issue categories of `ValidationIssue` (the `issue_type` strings). -/
inductive IssueKind where
  | structural
  | archaism
  | calque
  | formalDialogue
  | terminology
  | readability
  | consistency
deriving DecidableEq, Repr

/-- Embedding of the `ValidationIssue` dataclass (see the section comment
for the omitted presentation-only fields). -/
structure ValidationIssue where
  issue_type : IssueKind
  severity : Severity
deriving DecidableEq, Repr

/-- Embedding of `ChapterValidator.calque_patterns`. -/
def calquePatterns : List PyStr :=
  [chars "крайне", chars "слева и справа", chars "совершенна",
   chars "На его взгляд", chars "резюмировал", chars "осуществлять",
   chars "производить впечатление", chars "испытывать чувство"]

/-- Embedding of `ChapterValidator.formal_dialogue_patterns`. -/
def formalDialoguePatterns : List PyStr :=
  [chars "Я собираюсь", chars "Позвольте мне", chars "Не могли бы вы",
   chars "Я хотел бы", chars "Кажется, что", chars "Я боюсь, что"]

/-- Embedding of `ChapterValidator.glossary_terms`. -/
def glossaryTermsV : List (PyStr × PyStr) :=
  [(chars "Slack-Off System", chars "Система Безделья"),
   (chars "Holy Son", chars "Святой Сын"),
   (chars "Banished Immortal Peak", chars "Пик Изгнанного Бессмертного"),
   (chars "Primordial Holy Land", chars "Изначальная Святая Земля"),
   (chars "dog licker", chars "подхалим")]

/-- Embedding of the `character_names` table in `_validate_consistency`. -/
def characterNameVariants : List (PyStr × List PyStr) :=
  [(chars "Цзян Чэнь", [chars "Jiang Chen", chars "цзян чэнь"]),
   (chars "Е Цинчэн", [chars "Ye Qingcheng", chars "е цинчэн"]),
   (chars "Ду Гуюнь", [chars "Du Guyun", chars "ду гуюнь"])]

/-- Embedding of `ChapterValidator._validate_structure`: non-blank line
counts may differ by at most two (high severity), double-newline counts by
at most one (medium severity). -/
def validateStructure (original translated : PyStr) : List ValidationIssue :=
  let origLines := ((splitOnNl original).filter
    (fun l => !(pyStrip l).isEmpty)).length
  let transLines := ((splitOnNl translated).filter
    (fun l => !(pyStrip l).isEmpty)).length
  let lineIssues : List ValidationIssue :=
    if 2 < ((origLines : ℤ) - transLines).natAbs then
      [⟨.structural, .high⟩] else []
  let origEmpty := countOcc (chars "\n\n") original
  let transEmpty := countOcc (chars "\n\n") translated
  let emptyIssues : List ValidationIssue :=
    if 1 < ((origEmpty : ℤ) - transEmpty).natAbs then
      [⟨.structural, .medium⟩] else []
  lineIssues ++ emptyIssues

/-- Embedding of `ChapterValidator._validate_archaisms`: the banned list
comes from `config.BANNED_ARCHAISMS` (`config.py` is not among the
provided sources, so the list is a parameter here); the containment guard
is on the lowercased text, the per-occurrence count is case-insensitive,
one critical issue per occurrence. -/
def validateArchaisms (archaisms : List PyStr) (text : PyStr) :
    List ValidationIssue :=
  archaisms.flatMap (fun a =>
    if occursIn a (pyLower text) then
      List.replicate (countOcc (pyLower a) (pyLower text))
        ⟨.archaism, .critical⟩
    else [])

/-- Embedding of `ChapterValidator._validate_calques`: case-sensitive, one
high-severity issue per occurrence. -/
def validateCalques (text : PyStr) : List ValidationIssue :=
  calquePatterns.flatMap (fun c =>
    if occursIn c text then
      List.replicate (countOcc c text) ⟨.calque, .high⟩
    else [])

/-- Embedding of `ChapterValidator._validate_dialogues`: case-sensitive,
one medium-severity issue per occurrence. -/
def validateDialogues (text : PyStr) : List ValidationIssue :=
  formalDialoguePatterns.flatMap (fun p =>
    if occursIn p text then
      List.replicate (countOcc p text) ⟨.formalDialogue, .medium⟩
    else [])

/-- Embedding of `ChapterValidator._validate_terminology`: one
high-severity issue for every English glossary term present without its
Russian counterpart. -/
def validateTerminology (text : PyStr) : List ValidationIssue :=
  glossaryTermsV.flatMap (fun p =>
    if occursIn p.1 text && !occursIn p.2 text then
      [⟨.terminology, .high⟩]
    else [])

/-- Python `re.split` on one-or-more sentence punctuation: runs of the
three characters split the text, runs at the ends produce empty pieces. -/
def splitPunct (s : PyStr) : List PyStr :=
  match s with
  | [] => [[]]
  | c :: cs =>
    if c == '.' || c == '!' || c == '?' then
      [] :: splitPunct (cs.dropWhile (fun d => d == '.' || d == '!' || d == '?'))
    else
      match splitPunct cs with
      | [] => [[c]]
      | l :: ls => (c :: l) :: ls
  termination_by s.length
  decreasing_by
    all_goals simp only [List.length_cons]
    · have := (List.dropWhile_sublist
        (fun d => d == '.' || d == '!' || d == '?') (l := cs)).length_le
      omega
    · omega

/-- Embedding of `ChapterValidator._validate_readability`: one
medium-severity issue per stripped non-empty sentence of more than fifteen
words. -/
def validateReadability (text : PyStr) : List ValidationIssue :=
  (splitPunct text).flatMap (fun s0 =>
    let s := pyStrip s0
    if !s.isEmpty && decide (15 < (pySplitWs s).length) then
      [⟨.readability, .medium⟩]
    else [])

/-- Embedding of `ChapterValidator._validate_consistency`: one
high-severity issue per character whose name appears in more than one
surface form. -/
def validateConsistency (text : PyStr) : List ValidationIssue :=
  characterNameVariants.flatMap (fun p =>
    if 1 < (p.2.filter (fun v => occursIn v text)).length then
      [⟨.consistency, .high⟩]
    else [])

/-- Per-metric scores produced by `_calculate_quality_scores`. -/
structure QualityScores where
  dialogue_naturalness : ℚ
  terminology_consistency : ℚ
  character_voice : ℚ
  cultural_adaptation : ℚ
deriving DecidableEq, Repr

/-- Embedding of `ChapterValidator._calculate_quality_scores` (its `text`
parameter is unused in the source and omitted here). -/
def calculateQualityScores (issues : List ValidationIssue) : QualityScores :=
  { dialogue_naturalness := max 0 (100 - 10 *
      ((issues.filter (fun i => i.issue_type == .formalDialogue)).length : ℚ))
    terminology_consistency := max 0 (100 - 15 *
      ((issues.filter (fun i => i.issue_type == .terminology)).length : ℚ))
    character_voice := max 0 (100 - 20 *
      ((issues.filter (fun i => i.issue_type == .archaism)).length : ℚ))
    cultural_adaptation := max 0 (100 - 15 *
      ((issues.filter (fun i => i.issue_type == .calque)).length : ℚ)) }

/-- Modelled from the spec: `QUALITY_METRICS` lives in the repository's
`config.py`, which is not among the provided sources; per the
specification it is a per-metric weight mapping over exactly the four
metric keys, consumed by `_calculate_overall_score`. -/
structure MetricWeights where
  dialogue_naturalness : ℚ
  terminology_consistency : ℚ
  character_voice : ℚ
  cultural_adaptation : ℚ
deriving DecidableEq, Repr

/-- Python `round(x, 1)`, modelled as round-half-up to one decimal place
(CPython rounds float ties to even; no statement below depends on the tie
behaviour). -/
def round1 (x : ℚ) : ℚ := ((⌊x * 10 + 1 / 2⌋ : ℤ) : ℚ) / 10

/-- Embedding of `ChapterValidator._calculate_overall_score`. -/
def calculateOverallScore (w : MetricWeights) (qs : QualityScores) : ℚ :=
  round1 (qs.dialogue_naturalness * w.dialogue_naturalness +
          qs.terminology_consistency * w.terminology_consistency +
          qs.character_voice * w.character_voice +
          qs.cultural_adaptation * w.cultural_adaptation)

/-- Embedding of the `ValidationResult` dataclass.  The recommendations
list is presentation-only strings built from the absent
`MIN_QUALITY_THRESHOLDS` configuration and is omitted. -/
structure ValidationResult where
  is_valid : Bool
  issues : List ValidationIssue
  quality_scores : QualityScores
  overall_score : ℚ
deriving DecidableEq, Repr

/-- Embedding of `ChapterValidator.validate_chapter`: run the seven checks
in order, compute the metric and overall scores, and set the pass flag. -/
def validateChapter (archaisms : List PyStr) (w : MetricWeights)
    (original translated : PyStr) : ValidationResult :=
  let issues :=
    validateStructure original translated ++
    validateArchaisms archaisms translated ++
    validateCalques translated ++
    validateDialogues translated ++
    validateTerminology translated ++
    validateReadability translated ++
    validateConsistency translated
  let qs := calculateQualityScores issues
  let overall := calculateOverallScore w qs
  { is_valid :=
      ((issues.filter (fun i => i.severity == .critical)).length == 0) &&
        decide ((70 : ℚ) ≤ overall)
    issues := issues
    quality_scores := qs
    overall_score := overall }

/-- C3: for every original and translated text (and any banned-archaism
list and metric weights), the validation result's pass flag is true iff
the issue list holds zero critical-severity issues and the weighted
overall score is at least seventy. -/
theorem C3_is_valid_iff (archaisms : List PyStr) (w : MetricWeights)
    (original translated : PyStr) :
    (validateChapter archaisms w original translated).is_valid = true ↔
      ((validateChapter archaisms w original translated).issues.filter
          (fun i => i.severity == Severity.critical) = [] ∧
        (70 : ℚ) ≤
          (validateChapter archaisms w original translated).overall_score) := by
  simp only [validateChapter, Bool.and_eq_true, beq_iff_eq,
    Nat.beq_eq_true_eq, List.length_eq_zero, decide_eq_true_eq]

/-! ## Character classifier: `tools/character_detector.py` -/

/-- The `CharacterType` enum. -/
inductive CharacterType where
  | jiangChen
  | yeQingcheng
  | duGuyun
  | elder
  | system
  | narrator
  | unknown
deriving DecidableEq, Repr

/-- The enum `value` strings of `CharacterType`, used as style-rule keys. -/
def characterTypeValue : CharacterType → PyStr
  | .jiangChen => chars "Jiang_Chen"
  | .yeQingcheng => chars "Ye_Qingcheng"
  | .duGuyun => chars "Du_Guyun"
  | .elder => chars "Elder"
  | .system => chars "System"
  | .narrator => chars "Narrator"
  | .unknown => chars "Unknown"

/-- Embedding of the `CharacterProfile` dataclass. -/
structure CharacterProfile where
  name : PyStr
  character_type : CharacterType
  speech_patterns : List PyStr
  thought_patterns : List PyStr
  keywords : List PyStr
  style_preferences : List (PyStr × PyStr)
  avoid_words : List PyStr
  prefer_words : List PyStr
deriving DecidableEq, Repr

/-- Embedding of `CharacterDetector.name_patterns`, an alias table in the
source's insertion order (earlier entries win the substring scan). -/
def namePatterns : List (PyStr × CharacterType) :=
  [(chars "Цзян Чэнь", .jiangChen), (chars "Jiang Chen", .jiangChen),
   (chars "цзян чэнь", .jiangChen), (chars "jiang chen", .jiangChen),
   (chars "Е Цинчэн", .yeQingcheng), (chars "Ye Qingcheng", .yeQingcheng),
   (chars "е цинчэн", .yeQingcheng), (chars "ye qingcheng", .yeQingcheng),
   (chars "Ду Гуюнь", .duGuyun), (chars "Du Guyun", .duGuyun),
   (chars "ду гуюнь", .duGuyun), (chars "du guyun", .duGuyun),
   (chars "Старейшина", .elder), (chars "Elder", .elder),
   (chars "старейшина", .elder), (chars "elder", .elder)]

/-- Embedding of `CharacterDetector.system_patterns`; each regex is a
literal with a trailing wildcard, matched case-insensitively, so a search
succeeds iff the lowered literal occurs in the lowered text. -/
def detectorSystemPatterns : List PyStr :=
  [chars "Динь!", chars "Система", chars "Оповещение", chars "Получено",
   chars "Награда", chars "System", chars "Notification"]

/-- Per-profile score accumulation of `_analyze_speech_style`, in source
order: preferred words first, then avoided words, then speech patterns. -/
def profileScore (p : CharacterProfile) (text : PyStr) : ℚ :=
  let lt := pyLower text
  let s := p.prefer_words.foldl
    (fun sc w => if occursIn (pyLower w) lt then sc + 2 / 10 else sc) 0
  let s := p.avoid_words.foldl
    (fun sc w => if occursIn (pyLower w) lt then sc - 1 / 10 else sc) s
  p.speech_patterns.foldl
    (fun sc w => if occursIn (pyLower w) lt then sc + 3 / 10 else sc) s

/-- Embedding of `CharacterDetector._analyze_speech_style`: running best
with strict improvement (so earlier profiles win ties), returned only
above the 0.3 floor — note the score is returned with no cap. -/
def analyzeSpeechStyle (profiles : List (CharacterType × CharacterProfile))
    (text : PyStr) : Option (CharacterType × ℚ) :=
  let best := profiles.foldl
    (fun acc p =>
      let score := profileScore p.2 text
      if acc.2 < score then (some p.1, score) else acc)
    ((none : Option CharacterType), (0 : ℚ))
  match best.1 with
  | some ct => if 3 / 10 < best.2 then some (ct, best.2) else none
  | none => none

/-- Embedding of `CharacterDetector._analyze_keywords`: per-profile keyword
hit counts, Python `max` over the dict (first maximum in insertion order),
confidence `min(0.8, hits * 0.2)` for a positive count. -/
def analyzeKeywords (profiles : List (CharacterType × CharacterProfile))
    (text : PyStr) : Option (CharacterType × ℚ) :=
  let lt := pyLower text
  let scores := profiles.map (fun p =>
    (p.1, (p.2.keywords.filter (fun k => occursIn (pyLower k) lt)).length))
  match scores with
  | [] => none
  | s0 :: rest =>
    let best := rest.foldl (fun acc x => if acc.2 < x.2 then x else acc) s0
    if 0 < best.2 then some (best.1, min (8 / 10) ((best.2 : ℚ) * (2 / 10)))
    else none

/-- Embedding of `CharacterDetector.detect_character_from_text`: alias
substring scan, then system patterns, then speech style, then keywords,
else unknown with confidence zero. -/
def detectCharacterFromText (profiles : List (CharacterType × CharacterProfile))
    (text : PyStr) : CharacterType × ℚ :=
  match namePatterns.find? (fun p => occursIn p.1 text) with
  | some p => (p.2, 1)
  | none =>
    if detectorSystemPatterns.any
        (fun sp => occursIn (pyLower sp) (pyLower text)) then
      (.system, 9 / 10)
    else
      match analyzeSpeechStyle profiles text with
      | some r => r
      | none =>
        match analyzeKeywords profiles text with
        | some r => r
        | none => (.unknown, 0)

/-- Embedding of `CharacterDetector._create_default_profiles` (the profile
set used when `character_voices.json` cannot be loaded). -/
def defaultProfiles : List (CharacterType × CharacterProfile) :=
  [(.jiangChen,
    { name := chars "Цзян Чэнь"
      character_type := .jiangChen
      speech_patterns := [chars "Дай мне", chars "Можешь", chars "Хочу"]
      thought_patterns := [chars "Серьёзно?", chars "Блин", chars "Да ну нафиг"]
      keywords := [chars "безделье", chars "система", chars "награда"]
      style_preferences := [(chars "style", chars "modern_casual")]
      avoid_words := [chars "сей", chars "дабы", chars "ибо", chars "весьма"]
      prefer_words := [chars "круто", chars "реально", chars "мощный"] }),
   (.yeQingcheng,
    { name := chars "Е Цинчэн"
      character_type := .yeQingcheng
      speech_patterns := [chars "Позвольте", chars "Не могли бы вы",
        chars "Я хотела бы"]
      thought_patterns := [chars "Неужели", chars "Должна ли я"]
      keywords := [chars "элегантность", chars "красота", chars "достоинство"]
      style_preferences := [(chars "style", chars "elegant_modern")]
      avoid_words := [chars "сей", chars "дабы", chars "ибо", chars "весьма"]
      prefer_words := [chars "действительно", chars "очень", chars "прекрасно"] }),
   (.system,
    { name := chars "Система"
      character_type := .system
      speech_patterns := [chars "Динь!", chars "Получено", chars "Награда"]
      thought_patterns := []
      keywords := [chars "система", chars "награда", chars "уведомление"]
      style_preferences := [(chars "style", chars "game_like")]
      avoid_words := []
      prefer_words := [chars "Динь!", chars "Награда получена!"] })]

/-! ### Claims C8 and C9 -/

/-- The speech-style score in the specification's wording: 0.3 per matched
speech pattern, plus 0.2 per matched preferred word, minus 0.1 per matched
avoided word. -/
def specProfileScore (p : CharacterProfile) (text : PyStr) : ℚ :=
  let lt := pyLower text
  3 / 10 * ((p.speech_patterns.filter
      (fun w => occursIn (pyLower w) lt)).length : ℚ) +
  2 / 10 * ((p.prefer_words.filter
      (fun w => occursIn (pyLower w) lt)).length : ℚ) -
  1 / 10 * ((p.avoid_words.filter
      (fun w => occursIn (pyLower w) lt)).length : ℚ)

/-- The winning profile and score of the speech-style step, computed from
the specification's per-profile formula with strict improvement (earlier
profiles win ties). -/
def specBest (profiles : List (CharacterType × CharacterProfile))
    (text : PyStr) : Option CharacterType × ℚ :=
  profiles.foldl
    (fun acc p =>
      let s := specProfileScore p.2 text
      if acc.2 < s then (some p.1, s) else acc)
    ((none : Option CharacterType), (0 : ℚ))

theorem profileScore_eq_spec (p : CharacterProfile) (text : PyStr) :
    profileScore p text = specProfileScore p text := by
  unfold profileScore specProfileScore
  rw [foldl_add_count, foldl_sub_count, foldl_add_count]
  ring

theorem foldl_best_congr (f g : CharacterType × CharacterProfile → ℚ) :
    ∀ (l : List (CharacterType × CharacterProfile))
      (acc : Option CharacterType × ℚ),
      (∀ p ∈ l, f p = g p) →
      l.foldl (fun acc p => if acc.2 < f p then (some p.1, f p) else acc) acc =
        l.foldl (fun acc p => if acc.2 < g p then (some p.1, g p) else acc)
          acc := by
  intro l
  induction l with
  | nil => intro acc _; rfl
  | cons a as ih =>
    intro acc h
    simp only [List.foldl_cons]
    rw [h a (by simp)]
    exact ih _ (fun p hp => h p (by simp [hp]))

/-- C8: the claim as stated is false — a text containing the alias
"Elder" (mapped to the elder character) is classified as Jiang Chen,
because an earlier alias in the fixed table order also occurs. -/
theorem C8_alias_counterexample :
    (chars "Elder", CharacterType.elder) ∈ namePatterns ∧
    occursIn (chars "Elder") (chars "Elder Jiang Chen") = true ∧
    detectCharacterFromText defaultProfiles (chars "Elder Jiang Chen") ≠
      (CharacterType.elder, 1) := by decide

/-- C8 (amended): whenever some alias occurs in the text and every alias
occurring in the text belongs to the one character `c`, the classifier
returns `c` with confidence exactly one, regardless of any system-pattern,
speech-style, or keyword signals also present; when aliases of different
characters co-occur, the first alias in the fixed table order wins
instead. -/
theorem C8_alias_first_match
    (profiles : List (CharacterType × CharacterProfile)) (text : PyStr)
    (c : CharacterType)
    (hall : ∀ p ∈ namePatterns, occursIn p.1 text = true → p.2 = c)
    (hsome : ∃ p ∈ namePatterns, occursIn p.1 text = true) :
    detectCharacterFromText profiles text = (c, 1) := by
  obtain ⟨q, hq, hocc⟩ := hsome
  have hfind : (namePatterns.find? (fun p => occursIn p.1 text)).isSome := by
    rw [List.find?_isSome]
    exact ⟨q, hq, hocc⟩
  obtain ⟨r, hr⟩ := Option.isSome_iff_exists.mp hfind
  unfold detectCharacterFromText
  rw [hr]
  have hp : occursIn r.1 text = true := by simpa using List.find?_some hr
  have hc := hall r (List.mem_of_find?_eq_some hr) hp
  show (r.2, (1 : ℚ)) = (c, 1)
  rw [hc]

/-- Witness for C8: a text containing the alias "Jiang Chen" (and aliases
of no other character) is classified as Jiang Chen with confidence one. -/
theorem C8_alias_first_match_witness :
    (∀ p ∈ namePatterns,
      occursIn p.1 (chars "Jiang Chen appeared") = true →
        p.2 = CharacterType.jiangChen) ∧
    (∃ p ∈ namePatterns,
      occursIn p.1 (chars "Jiang Chen appeared") = true) ∧
    detectCharacterFromText defaultProfiles (chars "Jiang Chen appeared") =
      (CharacterType.jiangChen, 1) :=
  ⟨by decide, by decide,
    C8_alias_first_match defaultProfiles (chars "Jiang Chen appeared")
      CharacterType.jiangChen (by decide) (by decide)⟩

/-- C9: the claim's cap is absent from the code — on a text matching three
preferred words and two speech patterns of one profile the classifier
returns confidence 1.2, strictly above one. -/
theorem C9_confidence_exceeds_one :
    1 < (detectCharacterFromText defaultProfiles
      (chars "Дай мне круто реально мощный Можешь")).2 := by decide

/-- C9 (amended): for a text matching no alias and no system pattern, the
speech-style step scores every profile by 0.3 per matched speech pattern
plus 0.2 per matched preferred word minus 0.1 per matched avoided word,
the profile with the highest score wins (earlier profiles win ties), and
when that score is strictly above the 0.3 floor it is returned as the
confidence without any cap — the returned confidence can exceed one. -/
theorem C9_speech_style_uncapped
    (profiles : List (CharacterType × CharacterProfile)) (text : PyStr)
    (ct : CharacterType)
    (hA : ∀ p ∈ namePatterns, occursIn p.1 text = false)
    (hS : ∀ sp ∈ detectorSystemPatterns,
      occursIn (pyLower sp) (pyLower text) = false)
    (hbest : (specBest profiles text).1 = some ct)
    (hfloor : 3 / 10 < (specBest profiles text).2) :
    detectCharacterFromText profiles text = (ct, (specBest profiles text).2) ∧
    (∀ p ∈ profiles, profileScore p.2 text = specProfileScore p.2 text) := by
  have hscore : ∀ p ∈ profiles, profileScore p.2 text =
      specProfileScore p.2 text :=
    fun p _ => profileScore_eq_spec p.2 text
  refine ⟨?_, hscore⟩
  have hfind : namePatterns.find? (fun p => occursIn p.1 text) = none :=
    List.find?_eq_none.mpr (fun p hp => by simp [hA p hp])
  have hany : detectorSystemPatterns.any
      (fun sp => occursIn (pyLower sp) (pyLower text)) = false := by
    rw [List.any_eq_false]
    intro sp hsp
    simp [hS sp hsp]
  have hstyle : analyzeSpeechStyle profiles text =
      some (ct, (specBest profiles text).2) := by
    unfold analyzeSpeechStyle
    have hfold : profiles.foldl
        (fun acc p =>
          if acc.2 < profileScore p.2 text
          then (some p.1, profileScore p.2 text) else acc)
        ((none : Option CharacterType), (0 : ℚ)) = specBest profiles text := by
      unfold specBest
      exact foldl_best_congr (fun p => profileScore p.2 text)
        (fun p => specProfileScore p.2 text) profiles _ hscore
    simp only [hfold]
    rw [hbest]
    simp [hfloor]
  unfold detectCharacterFromText
  rw [hfind, hany]
  simp [hstyle]

/-- Witness for C9: on a concrete no-alias no-system text the speech-style
winner is Jiang Chen with the spec-formula score one half. -/
theorem C9_speech_style_uncapped_witness :
    (∀ p ∈ namePatterns, occursIn p.1 (chars "Дай мне круто") = false) ∧
    (specBest defaultProfiles (chars "Дай мне круто")).1 =
      some CharacterType.jiangChen ∧
    3 / 10 < (specBest defaultProfiles (chars "Дай мне круто")).2 ∧
    detectCharacterFromText defaultProfiles (chars "Дай мне круто") =
      (CharacterType.jiangChen,
        (specBest defaultProfiles (chars "Дай мне круто")).2) :=
  ⟨by decide, by decide, by decide,
    (C9_speech_style_uncapped defaultProfiles (chars "Дай мне круто")
      CharacterType.jiangChen (by decide) (by decide) (by decide)
      (by decide)).1⟩

/-! ## Segment resolver: `tools/chapter_translator.py`

The resolver consults the reference data loaded from
`translation_memory.json` (absent sections behave as empty), the process
cache, the file-backend memory store, and the cached external translate
capability.  The `datetime.now().isoformat()` timestamps on results are
write-only metadata and are omitted; the store timestamp is an explicit
`now` parameter as before. -/

/-- Python `text.split(',')` (same shape as `splitOnNl`). -/
def splitOnComma : PyStr → List PyStr
  | [] => [[]]
  | c :: cs =>
    if c = ',' then [] :: splitOnComma cs
    else
      match splitOnComma cs with
      | [] => [[c]]
      | l :: ls => (c :: l) :: ls

/-- The reference data of `TranslationMemoryManager` as read from
`translation_memory.json`: phrase translations and glossary terms are
category-keyed dictionaries of string pairs, style rules map rule keys to
example dictionaries.  A missing JSON section behaves exactly like the
empty list. -/
structure RefData where
  phrase_translations : List (PyStr × List (PyStr × PyStr))
  glossary_terms : List (PyStr × List (PyStr × PyStr))
  forbidden_words : List PyStr
  preferred_alternatives : List (PyStr × PyStr)
  style_rules : List (PyStr × List (PyStr × PyStr))

/-- Embedding of `TranslationMemoryManager.get_phrase_translation`: exact
key match across all chapter dictionaries first, then the first pair whose
phrase contains the text or is contained in it, case-insensitively.  (The
`chapter` parameter of the source is never read and is omitted.) -/
def getPhraseTranslation (rd : RefData) (text : PyStr) : Option PyStr :=
  match rd.phrase_translations.findSome? (fun cat => lookupA cat.2 text) with
  | some tr => some tr
  | none =>
    rd.phrase_translations.findSome? (fun cat =>
      cat.2.findSome? (fun p =>
        if occursIn (pyLower text) (pyLower p.1) ||
            occursIn (pyLower p.1) (pyLower text) then
          some p.2
        else none))

/-- Embedding of `ChapterTranslator._apply_glossary`: replace every
English term by its Russian term, across all categories in order. -/
def applyGlossary (rd : RefData) (text : PyStr) : PyStr :=
  rd.glossary_terms.foldl
    (fun t cat => cat.2.foldl (fun t p => pyReplace t p.1 p.2) t) text

/-- Embedding of `ChapterTranslator._check_forbidden_words`: replace each
forbidden word present in the text by the first comma-separated preferred
alternative, when one is configured. -/
def checkForbiddenWords (rd : RefData) (text : PyStr) : PyStr :=
  if rd.forbidden_words.isEmpty then text
  else
    rd.forbidden_words.foldl
      (fun t w =>
        if occursIn w t then
          match lookupA rd.preferred_alternatives w with
          | some alt => pyReplace t w (pyStrip ((splitOnComma alt).headD []))
          | none => t
        else t)
      text

/-- Embedding of `ChapterTranslator._apply_character_style`: look up the
style rule keyed by the character value suffixed with "_thoughts" and
apply each example replacement whose key occurs case-insensitively (the
replacement itself is case-sensitive, as in the source). -/
def applyCharacterStyle (rd : RefData) (text characterValue : PyStr) : PyStr :=
  match lookupA rd.style_rules (characterValue ++ chars "_thoughts") with
  | none => text
  | some examples =>
    examples.foldl
      (fun t p =>
        if occursIn (pyLower p.1) (pyLower t) then pyReplace t p.1 p.2 else t)
      text

/-- Embedding of `ChapterTranslator._find_replacement` (its `prefer_words`
parameter is never read in the source). -/
def findReplacement (w : PyStr) : PyStr :=
  (lookupA
    [(chars "сей", chars "этот"), (chars "дабы", chars "чтобы"),
     (chars "ибо", chars "потому что"), (chars "весьма", chars "очень"),
     (chars "отнюдь", chars "совсем не")] w).getD w

/-- Avoid-word list of a character type
(`CharacterDetector.get_character_avoid_words`). -/
def avoidWordsOf (profiles : List (CharacterType × CharacterProfile))
    (ct : CharacterType) : List PyStr :=
  match profiles.find? (fun p => p.1 == ct) with
  | some p => p.2.avoid_words
  | none => []

/-- Embedding of `ChapterTranslator._adapt_for_character` (its `character`
and `context` parameters are never read): re-detect the character from the
translated text and, above confidence one half, replace each avoided word
present via `_find_replacement`; the preferred-word loop of the source is
an explicit no-op (`pass`). -/
def adaptForCharacter (profiles : List (CharacterType × CharacterProfile))
    (text : PyStr) : PyStr :=
  let ctc := detectCharacterFromText profiles text
  if ctc.1 ≠ CharacterType.unknown ∧ 1 / 2 < ctc.2 then
    (avoidWordsOf profiles ctc.1).foldl
      (fun t w =>
        if occursIn w t then pyReplace t w (findReplacement w) else t)
      text
  else text

/-- Scene replacement tables of `_adapt_for_scene`. -/
def sceneAdaptations : List (PyStr × List (PyStr × PyStr)) :=
  [(chars "боевая",
    [(chars "замедленно", chars "медленно"),
     (chars "осторожно", chars "осторожно")]),
   (chars "романтическая",
    [(chars "грубо", chars "нежно"), (chars "резко", chars "мягко")])]

/-- Embedding of `ChapterTranslator._adapt_for_scene`. -/
def adaptForScene (text scene : PyStr) : PyStr :=
  match lookupA sceneAdaptations scene with
  | some reps => reps.foldl (fun t p => pyReplace t p.1 p.2) text
  | none => text

/-- Tone replacement tables of `_adapt_for_tone`. -/
def toneAdaptations : List (PyStr × List (PyStr × PyStr)) :=
  [(chars "напряженный",
    [(chars "спокойно", chars "напряженно"),
     (chars "медленно", chars "быстро")]),
   (chars "грустный",
    [(chars "радостно", chars "грустно"),
     (chars "весело", chars "печально")])]

/-- Embedding of `ChapterTranslator._adapt_for_tone`. -/
def adaptForTone (text tone : PyStr) : PyStr :=
  match lookupA toneAdaptations tone with
  | some reps => reps.foldl (fun t p => pyReplace t p.1 p.2) text
  | none => text

/-- Embedding of the `TranslationContext` dataclass. -/
structure TranslationContext where
  chapter_number : PyStr
  previous_chapters : List PyStr
  main_characters : List PyStr
  current_scene : PyStr
  emotional_tone : PyStr
  translation_style : PyStr := chars "modern_web_novel"
deriving DecidableEq, Repr

/-- Embedding of `ChapterTranslator._adapt_translation`: character, scene
and tone steps in order, each skipped on a falsy (empty) selector. -/
def adaptTranslation (profiles : List (CharacterType × CharacterProfile))
    (base : PyStr) (seg : TextSegment) (ctx : TranslationContext) : PyStr :=
  let t :=
    match seg.character with
    | some ch => if ch.isEmpty then base else adaptForCharacter profiles base
    | none => base
  let t := if ctx.current_scene.isEmpty then t
           else adaptForScene t ctx.current_scene
  if ctx.emotional_tone.isEmpty then t else adaptForTone t ctx.emotional_tone

/-- One entry of the `DeepLCache` key-value store
(`tools/deepl_cache.py`).  The source judges freshness by comparing the
stored timestamp against the wall clock; that comparison is abstracted
into the `expired` flag, which a fresh write clears. -/
structure DeeplCacheEntry where
  translation : PyStr
  expired : Bool
deriving DecidableEq, Repr

/-- The DeepL response cache, keyed in the source by
`md5(f"{text}|EN|RU")`; the hash is modelled by the text itself (the
language pair is fixed throughout the repository). -/
abbrev DeeplCache := List (PyStr × DeeplCacheEntry)

/-- Embedding of `DeepLCache.get`: a hit returns the stored translation,
an expired entry is deleted and misses. -/
def deeplCacheGet (c : DeeplCache) (text : PyStr) :
    Option PyStr × DeeplCache :=
  match lookupA c text with
  | some e =>
    if e.expired then (none, c.filter (fun p => !(p.1 == text)))
    else (some e.translation, c)
  | none => (none, c)

/-- Embedding of `DeepLCache.set`: dictionary assignment (update in place,
else append), with a fresh timestamp. -/
def deeplCacheSet (c : DeeplCache) (text tr : PyStr) : DeeplCache :=
  match lookupA c text with
  | some _ =>
    c.map (fun p => if p.1 == text then (p.1, ⟨tr, false⟩) else p)
  | none => c ++ [(text, ⟨tr, false⟩)]

/-- Embedding of `DeepLCache.get_or_translate`: a truthy (non-empty)
cached translation is returned verbatim; otherwise the translate function
runs, a success is cached and returned, and a failure falls back to
returning the ORIGINAL text. -/
def getOrTranslate (c : DeeplCache) (api : PyStr → Except PyStr PyStr)
    (text : PyStr) : PyStr × DeeplCache :=
  let got := deeplCacheGet c text
  let proceed : PyStr × DeeplCache :=
    match api text with
    | .ok tr => (tr, deeplCacheSet got.2 text tr)
    | .error _ => (text, got.2)
  match got.1 with
  | some t => if t.isEmpty then proceed else (t, got.2)
  | none => proceed

/-- Embedding of `CachedDeepLTranslator.translate_text`: pass the text
through unchanged when no underlying translator could be constructed,
else go through the cache. -/
def cachedTranslateText (hasTranslator : Bool) (c : DeeplCache)
    (api : PyStr → Except PyStr PyStr) (text : PyStr) : PyStr × DeeplCache :=
  if hasTranslator then getOrTranslate c api text else (text, c)

/-- Embedding of the `TranslationResult` dataclass (its timestamp is
write-only wall-clock metadata and is omitted). -/
structure TranslationResult where
  original_text : PyStr
  translated_text : PyStr
  translator : PyStr
  confidence : ℚ
  context_used : Bool
  memory_hit : Bool
  quality_score : ℚ
deriving DecidableEq, Repr

/-- The read-only collaborators of `ChapterTranslator`: reference data,
character profiles, the external translate capability (fallible), whether
a `DeepLFileTranslator` could be constructed, and the similarity
threshold (`TRANSLATION_MEMORY["similarity_threshold"]` from the absent
`config.py`, hence a parameter). -/
structure TranslatorEnv where
  refData : RefData
  profiles : List (CharacterType × CharacterProfile)
  translateApi : PyStr → Except PyStr PyStr
  hasTranslator : Bool
  similarityThreshold : ℚ

/-- The mutable state of a `ChapterTranslator` run: the in-process
`translation_cache` (key to translated text and quality score), the DeepL
response cache, and the file-backend memory store. -/
structure TranslatorState where
  translationCache : List (PyStr × (PyStr × ℚ))
  deeplCache : DeeplCache
  memStore : List StoredRec

/-- Embedding of `ChapterTranslator._translate_segment`: empty-line pass
through, process cache, reference base, fuzzy memory match, then the
cached external capability, followed by glossary, forbidden-word,
character-style and contextual adaptation, caching the final result. -/
def translateSegment (env : TranslatorEnv) (st : TranslatorState)
    (seg : TextSegment) (ctx : TranslationContext) :
    TranslationResult × TranslatorState :=
  if seg.segment_type == SegKind.empty_line || (pyStrip seg.content).isEmpty
  then
    ({ original_text := seg.content, translated_text := [],
       translator := chars "Empty_Line", confidence := 1,
       context_used := false, memory_hit := false, quality_score := 100 }, st)
  else
    let cacheKey := seg.content ++ '_' :: ctx.translation_style
    match lookupA st.translationCache cacheKey with
    | some entry =>
      ({ original_text := seg.content, translated_text := entry.1,
         translator := chars "Cache", confidence := 9 / 10,
         context_used := true, memory_hit := true,
         quality_score := entry.2 }, st)
    | none =>
      match getPhraseTranslation env.refData seg.content with
      | some ph =>
        ({ original_text := seg.content, translated_text := ph,
           translator := chars "Reference_Base", confidence := 1,
           context_used := true, memory_hit := true,
           quality_score := 98 }, st)
      | none =>
        let similar := findSimilarFileSystem st.memStore seg.content
          env.similarityThreshold 5
        let baseSt : PyStr × TranslatorState :=
          match similar with
          | m :: _ => (m.target_text, st)
          | [] =>
            let td := cachedTranslateText env.hasTranslator st.deeplCache
              env.translateApi seg.content
            (td.1, { st with deeplCache := td.2 })
        let b1 := applyGlossary env.refData baseSt.1
        let b2 := checkForbiddenWords env.refData b1
        let ctc := detectCharacterFromText env.profiles seg.content
        let b3 :=
          if ctc.1 ≠ CharacterType.unknown then
            applyCharacterStyle env.refData b2 (characterTypeValue ctc.1)
          else b2
        let adapted := adaptTranslation env.profiles b3 seg ctx
        let tcm : PyStr × ℚ × Bool :=
          match similar with
          | m :: _ => (chars "Memory+Adaptation", m.similarity, true)
          | [] => (chars "DeepL+Adaptation", 8 / 10, false)
        let result : TranslationResult :=
          { original_text := seg.content, translated_text := adapted,
            translator := tcm.1, confidence := tcm.2.1,
            context_used := true, memory_hit := tcm.2.2,
            quality_score := calculateQualityScore adapted }
        (result,
         { baseSt.2 with translationCache := baseSt.2.translationCache ++
             [(cacheKey, (adapted, result.quality_score))] })

/-- Embedding of `ChapterTranslator._save_to_memory`: unconditionally
insert the segment's source text and resolved target text into the
memory store. -/
def saveToMemory (st : TranslatorState) (seg : TextSegment)
    (r : TranslationResult) (ctx : TranslationContext) (now : PyStr) :
    TranslatorState :=
  { st with memStore := (addToFileSystem st.memStore
      { source_text := seg.content
        target_text := r.translated_text
        chapter := ctx.chapter_number
        character := seg.character
        context := some ctx.current_scene
        quality_score := some r.quality_score
        timestamp := none } now).1 }

/-- The per-segment loop body shared by the sequential and batch paths of
`translate_with_context`: resolve the segment, append the result, save to
memory. -/
def processSegments (env : TranslatorEnv) (ctx : TranslationContext)
    (now : PyStr) :
    List TextSegment → List TranslationResult × TranslatorState →
      List TranslationResult × TranslatorState
  | [], acc => acc
  | seg :: rest, acc =>
    let rs := translateSegment env acc.2 seg ctx
    let st2 := saveToMemory rs.2 seg rs.1 ctx now
    processSegments env ctx now rest (acc.1 ++ [rs.1], st2)

/-- Embedding of `ChapterTranslator.translate_with_context`: line-split the
chapter; more than ten segments go through `_translate_segments_batch`,
which regroups segments as dialogue, then system, then other (a segment
that is both dialogue and system is processed twice, exactly as the two
source list comprehensions do); ten or fewer are processed in source
order. -/
def translateWithContext (env : TranslatorEnv) (st : TranslatorState)
    (text : PyStr) (ctx : TranslationContext) (now : PyStr) :
    List TranslationResult × TranslatorState :=
  let segments := splitByLines text
  if 10 < segments.length then
    let dialogue := segments.filter (fun s => s.is_dialogue)
    let system := segments.filter (fun s => s.is_system)
    let other := segments.filter (fun s => !s.is_dialogue && !s.is_system)
    processSegments env ctx now other
      (processSegments env ctx now system
        (processSegments env ctx now dialogue ([], st)))
  else
    processSegments env ctx now segments ([], st)

theorem processSegments_length (env : TranslatorEnv)
    (ctx : TranslationContext) (now : PyStr) :
    ∀ (segs : List TextSegment)
      (acc : List TranslationResult × TranslatorState),
      (processSegments env ctx now segs acc).1.length =
        acc.1.length + segs.length := by
  intro segs
  induction segs with
  | nil => intro acc; simp [processSegments]
  | cons s rest ih =>
    intro acc
    simp only [processSegments]
    rw [ih]
    simp only [List.length_append, List.length_cons, List.length_nil]
    omega

/-- Empty reference data, as when every section of
`translation_memory.json` is absent. -/
def emptyRefData : RefData := ⟨[], [], [], [], []⟩

/-- A concrete translation context used to evaluate the resolver. -/
def ctxEx : TranslationContext :=
  { chapter_number := chars "1", previous_chapters := [],
    main_characters := [], current_scene := [], emotional_tone := [] }

/-- A concrete environment whose external translate capability always
fails. -/
def envFailing : TranslatorEnv :=
  { refData := emptyRefData, profiles := defaultProfiles,
    translateApi := fun _ => Except.error (chars "API down"),
    hasTranslator := true, similarityThreshold := 17 / 20 }

/-- The all-empty initial translator state. -/
def stEmpty : TranslatorState := ⟨[], [], []⟩

/-- The concrete non-empty segment used below. -/
def segEx : TextSegment := mkLineSegment 1 (chars "Hello you friend")

/-- C5 (code bug): resolving the empty chapter text — one empty-line
segment — does pass the segment through unchanged with confidence one,
but `translate_with_context` calls `_save_to_memory` for EVERY resolved
segment, so the store gains a record with empty source and target text,
contradicting the source's own comment («Не сохраняем пустые строки в
память», line 126 of `chapter_translator.py`) and the claim that the
store is unchanged. -/
theorem C5_empty_line_persisted :
    (translateSegment envFailing stEmpty (mkLineSegment 1 []) ctxEx).1 =
      { original_text := [], translated_text := [],
        translator := chars "Empty_Line", confidence := 1,
        context_used := false, memory_hit := false, quality_score := 100 } ∧
    (translateWithContext envFailing stEmpty [] ctxEx
        (chars "now")).2.memStore =
      [{ id := memoryId [] (chars "1"), source_text := [], target_text := [],
         chapter := chars "1", character := none, context := some [],
         quality_score := some 100, timestamp := chars "now" }] := by
  decide

/-- C6: the claim as stated is false — when the external capability fails
on a segment, the resolver does NOT produce an error-tagged result with
empty text and confidence zero; `DeepLCache.get_or_translate` swallows the
failure and returns the original source text, which then flows through the
post-processing chain with confidence 0.8 and no error field at all. -/
theorem C6_translate_failure_counterexample :
    (translateSegment envFailing stEmpty segEx ctxEx).1.translated_text =
      chars "Hello you friend" ∧
    (translateSegment envFailing stEmpty segEx ctxEx).1.confidence = 8 / 10 ∧
    ¬((translateSegment envFailing stEmpty segEx ctxEx).1.translated_text
        = [] ∧
      (translateSegment envFailing stEmpty segEx ctxEx).1.confidence = 0) := by
  decide

/-- C6 (amended): when the external capability fails on a segment (all
earlier resolution steps missing), the failure is swallowed: the segment
resolves to a fallback result whose text is the segment's SOURCE text run
through the post-processing chain, with confidence 0.8, translator tag
"DeepL+Adaptation" and no error information; the caches and store are
untouched by the failure, and a chapter of at most ten segments still
yields one result per segment — a failure never aborts the run, but no
error-tagged empty result exists. -/
theorem C6_translate_failure_fallback
    (env : TranslatorEnv) (st : TranslatorState) (seg : TextSegment)
    (ctx : TranslationContext) (e : PyStr)
    (hne : (seg.segment_type == SegKind.empty_line ||
      (pyStrip seg.content).isEmpty) = false)
    (hcache : lookupA st.translationCache
      (seg.content ++ '_' :: ctx.translation_style) = none)
    (hphrase : getPhraseTranslation env.refData seg.content = none)
    (hsim : findSimilarFileSystem st.memStore seg.content
      env.similarityThreshold 5 = [])
    (htr : env.hasTranslator = true)
    (hdc : deeplCacheGet st.deeplCache seg.content = (none, st.deeplCache))
    (hapi : env.translateApi seg.content = Except.error e) :
    (translateSegment env st seg ctx).1.translated_text =
      adaptTranslation env.profiles
        (let b2 := checkForbiddenWords env.refData
          (applyGlossary env.refData seg.content)
         let ctc := detectCharacterFromText env.profiles seg.content
         if ctc.1 ≠ CharacterType.unknown then
           applyCharacterStyle env.refData b2 (characterTypeValue ctc.1)
         else b2)
        seg ctx ∧
    (translateSegment env st seg ctx).1.confidence = 8 / 10 ∧
    (translateSegment env st seg ctx).1.translator =
      chars "DeepL+Adaptation" ∧
    (translateSegment env st seg ctx).2.deeplCache = st.deeplCache ∧
    (translateSegment env st seg ctx).2.memStore = st.memStore ∧
    (∀ (st0 : TranslatorState) (text now : PyStr),
      (splitByLines text).length ≤ 10 →
      (translateWithContext env st0 text ctx now).1.length =
        (splitByLines text).length) := by
  have hbase : cachedTranslateText env.hasTranslator st.deeplCache
      env.translateApi seg.content = (seg.content, st.deeplCache) := by
    simp only [cachedTranslateText, htr, if_true, getOrTranslate, hdc, hapi]
  have hlen : ∀ (st0 : TranslatorState) (text now : PyStr),
      (splitByLines text).length ≤ 10 →
      (translateWithContext env st0 text ctx now).1.length =
        (splitByLines text).length := by
    intro st0 text now hle
    simp only [translateWithContext]
    rw [if_neg (by omega)]
    rw [processSegments_length]
    simp
  refine ⟨?_, ?_, ?_, ?_, ?_, hlen⟩ <;>
    simp only [translateSegment, hne, Bool.false_eq_true, if_false, hcache,
      hphrase, hsim, hbase]

/-- Witness for C6: the fallback behaviour evaluated at the concrete
failing environment and segment. -/
theorem C6_translate_failure_fallback_witness :
    (translateSegment envFailing stEmpty segEx ctxEx).1.confidence = 8 / 10 ∧
    (translateSegment envFailing stEmpty segEx ctxEx).1.translator =
      chars "DeepL+Adaptation" :=
  ⟨(C6_translate_failure_fallback envFailing stEmpty segEx ctxEx
      (chars "API down") (by decide) (by decide) (by decide) (by decide)
      rfl (by decide) rfl).2.1,
   (C6_translate_failure_fallback envFailing stEmpty segEx ctxEx
      (chars "API down") (by decide) (by decide) (by decide) (by decide)
      rfl (by decide) rfl).2.2.1⟩

/-! ## Batched external capability: `tools/async_deepl_translator.py`

The async machinery is modelled sequentially: `asyncio.gather` over the
batch coroutines awaits them in order, and since `_translate_batch`
catches every exception its body can raise (converting a failure into one
error response per text of the batch), the `isinstance(batch_result,
Exception)` branch of the gather loop is unreachable in this semantics —
only task cancellation, which is outside a sequential embedding, could
trigger it.  Wall-clock `processing_time` and the running statistics are
omitted. -/

/-- Embedding of the `TranslationResponse` dataclass. -/
structure TranslationResponse where
  text : PyStr
  detected_source_language : PyStr
  success : Bool
  error_message : Option PyStr := none
deriving DecidableEq, Repr

/-- Outcome of one HTTP round trip of `_call_deepl_api`: a parsed
translation list, a non-200 status, or a network failure. -/
inductive DeeplApiResult where
  | ok (translations : List (PyStr × PyStr))
  | httpError (status : Nat) (body : PyStr)
  | networkError (msg : PyStr)

/-- Embedding of `AsyncDeepLTranslator._call_deepl_api`: on HTTP 200 one
success response per returned translation item (text and detected source
language); otherwise one identical error response per input text (the
source prefixes the message with "API Error" or "Network Error"; the
prefix is presentational and the payload is kept). -/
def callDeeplApi (api : List PyStr → DeeplApiResult) (texts : List PyStr)
    (srcLang : PyStr) : List TranslationResponse :=
  match api texts with
  | .ok items => items.map (fun p =>
      { text := p.1, detected_source_language := p.2, success := true })
  | .httpError _ body => texts.map (fun _ =>
      { text := [], detected_source_language := srcLang, success := false,
        error_message := some body })
  | .networkError msg => texts.map (fun _ =>
      { text := [], detected_source_language := srcLang, success := false,
        error_message := some msg })

/-- The batch-level response cache of `AsyncDeepLTranslator`, keyed in the
source by the language pair and `hash(tuple(texts))`; the hash is modelled
by the text tuple itself. -/
abbrev BatchCache :=
  List ((PyStr × PyStr × List PyStr) × List TranslationResponse)

/-- Lookup in the batch cache. -/
def lookupBatch (c : BatchCache) (k : PyStr × PyStr × List PyStr) :
    Option (List TranslationResponse) :=
  (c.find? (fun p => p.1 == k)).map (·.2)

/-- Embedding of `AsyncDeepLTranslator._translate_batch`: serve from the
batch cache, else call the API once for the whole batch and cache the
responses (see the section comment for the unreachable `except` clause). -/
def translateBatch (cache : BatchCache) (api : List PyStr → DeeplApiResult)
    (batch : List (Nat × PyStr)) (srcLang tgtLang : PyStr) :
    List TranslationResponse × BatchCache :=
  let key := (srcLang, tgtLang, batch.map (·.2))
  match lookupBatch cache key with
  | some rs => (rs, cache)
  | none =>
    let rs := callDeeplApi api (batch.map (·.2)) srcLang
    (rs, cache ++ [(key, rs)])

/-- Consecutive slices of size `n`, as `range(0, len, n)` slices the
non-empty list (the source would raise `ValueError` for a zero batch
size; that case is modelled as a single slice and excluded by hypothesis
in the theorem below). -/
def chunks {α : Type} (n : Nat) : List α → List (List α)
  | [] => []
  | x :: xs =>
    if n = 0 then [x :: xs]
    else (x :: xs).take n :: chunks n ((x :: xs).drop n)
  termination_by l => l.length
  decreasing_by
    simp only [List.length_drop, List.length_cons]
    omega

/-- The indexed non-empty texts:
one pair per input position whose text is not whitespace-only. -/
def nonEmptyOf (texts : List PyStr) : List (Nat × PyStr) :=
  texts.enum.filter (fun p => !(pyStrip p.2).isEmpty)

/-- The success filler response produced for blank positions. -/
def blankResponse (srcLang : PyStr) : TranslationResponse :=
  { text := [], detected_source_language := srcLang, success := true }

/-- The gather-and-concatenate loop of `translate_batch_async`: batches in
order, responses concatenated, cache threaded through. -/
def allBatchResults (cache : BatchCache) (api : List PyStr → DeeplApiResult) :
    List (List (Nat × PyStr)) → PyStr → PyStr →
      List TranslationResponse × BatchCache
  | [], _, _ => ([], cache)
  | b :: bs, s, t =>
    let rc := translateBatch cache api b s t
    let rest := allBatchResults rc.2 api bs s t
    (rc.1 ++ rest.1, rest.2)

/-- The order-restoring loop at the end of `translate_batch_async`; `none`
models the `IndexError` the source would raise if the collected responses
ran out before the non-blank texts did. -/
def restoreOrder (srcLang : PyStr) :
    List PyStr → List TranslationResponse →
      Option (List TranslationResponse)
  | [], _ => some []
  | t :: ts, rs =>
    if (pyStrip t).isEmpty then
      (restoreOrder srcLang ts rs).map
        (fun out => blankResponse srcLang :: out)
    else
      match rs with
      | [] => none
      | r :: rs' =>
        (restoreOrder srcLang ts rs').map (fun out => r :: out)

/-- Embedding of `AsyncDeepLTranslator.translate_batch_async`: filter the
blank texts, slice the rest into batches, process the batches, and
restore input order with success fillers at the blank positions. -/
def translateBatchAsync (cache : BatchCache)
    (api : List PyStr → DeeplApiResult) (texts : List PyStr)
    (batchSize : Nat) (srcLang tgtLang : PyStr) :
    Option (List TranslationResponse) × BatchCache :=
  let ne := nonEmptyOf texts
  if ne.isEmpty then
    (some (texts.map (fun _ => blankResponse srcLang)), cache)
  else
    let ar := allBatchResults cache api (chunks batchSize ne) srcLang tgtLang
    (restoreOrder srcLang texts ar.1, ar.2)

theorem callDeeplApi_length (api : List PyStr → DeeplApiResult)
    (texts : List PyStr) (s : PyStr)
    (hapi : ∀ ts items, api ts = DeeplApiResult.ok items →
      items.length = ts.length) :
    (callDeeplApi api texts s).length = texts.length := by
  unfold callDeeplApi
  cases h : api texts with
  | ok items => simp [hapi texts items h]
  | httpError st b => simp
  | networkError m => simp

theorem translateBatch_spec (cache : BatchCache)
    (api : List PyStr → DeeplApiResult) (b : List (Nat × PyStr))
    (s t : PyStr)
    (hapi : ∀ ts items, api ts = DeeplApiResult.ok items →
      items.length = ts.length)
    (hwf : ∀ p ∈ cache, p.2.length = p.1.2.2.length) :
    (translateBatch cache api b s t).1.length = b.length ∧
    (∀ p ∈ (translateBatch cache api b s t).2,
      p.2.length = p.1.2.2.length) := by
  unfold translateBatch
  cases hlb : lookupBatch cache (s, t, b.map (·.2)) with
  | some rs =>
    simp only [hlb]
    refine ⟨?_, hwf⟩
    unfold lookupBatch at hlb
    cases hf : cache.find? (fun p => p.1 == (s, t, b.map (·.2))) with
    | none => rw [hf] at hlb; cases hlb
    | some pr =>
      rw [hf] at hlb
      have hpr2 : pr.2 = rs := by simpa using hlb
      have hmem := List.mem_of_find?_eq_some hf
      have hkey : pr.1 = (s, t, b.map (·.2)) := by
        have := List.find?_some hf
        exact eq_of_beq (by simpa using this)
      have := hwf pr hmem
      rw [hpr2, hkey] at this
      simpa using this
  | none =>
    simp only [hlb]
    refine ⟨by simpa using callDeeplApi_length api (b.map (·.2)) s hapi, ?_⟩
    intro p hp
    rcases List.mem_append.mp hp with hp | hp
    · exact hwf p hp
    · have : p = ((s, t, b.map (·.2)),
          callDeeplApi api (b.map (·.2)) s) := by simpa using hp
      subst this
      simpa using callDeeplApi_length api (b.map (·.2)) s hapi

theorem allBatchResults_spec (api : List PyStr → DeeplApiResult)
    (s t : PyStr)
    (hapi : ∀ ts items, api ts = DeeplApiResult.ok items →
      items.length = ts.length) :
    ∀ (bs : List (List (Nat × PyStr))) (cache : BatchCache),
      (∀ p ∈ cache, p.2.length = p.1.2.2.length) →
      (allBatchResults cache api bs s t).1.length =
        (bs.map List.length).sum ∧
      (∀ p ∈ (allBatchResults cache api bs s t).2,
        p.2.length = p.1.2.2.length) := by
  intro bs
  induction bs with
  | nil => intro cache hwf; exact ⟨by simp [allBatchResults], hwf⟩
  | cons b rest ih =>
    intro cache hwf
    obtain ⟨hlen, hwf2⟩ := translateBatch_spec cache api b s t hapi hwf
    obtain ⟨hlen2, hwf3⟩ := ih _ hwf2
    constructor
    · simp only [allBatchResults, List.length_append, hlen, hlen2,
        List.map_cons, List.sum_cons]
    · simpa only [allBatchResults] using hwf3

theorem chunks_flatten {α : Type} (n : Nat) :
    ∀ (l : List α), (chunks n l).flatten = l
  | [] => by simp [chunks]
  | x :: xs => by
    by_cases hn : n = 0
    · simp [chunks, hn]
    · have hrec := chunks_flatten n ((x :: xs).drop n)
      simp only [chunks, hn, if_false]
      simp only [List.flatten_cons, hrec]
      exact List.take_append_drop n (x :: xs)
  termination_by l => l.length
  decreasing_by
    simp only [List.length_drop, List.length_cons]
    omega

theorem length_filter_enumFrom {α : Type} (P : α → Bool) :
    ∀ (n : Nat) (l : List α),
      ((List.enumFrom n l).filter (fun p => P p.2)).length =
        (l.filter P).length := by
  intro n l
  induction l generalizing n with
  | nil => rfl
  | cons a as ih =>
    by_cases h : P a = true
    · simp [List.enumFrom, List.filter_cons, h, ih]
    · simp [List.enumFrom, List.filter_cons, h, ih]

theorem restoreOrder_spec (srcLang : PyStr) :
    ∀ (texts : List PyStr) (rs : List TranslationResponse),
      rs.length = (texts.filter (fun t => !(pyStrip t).isEmpty)).length →
      ∃ out, restoreOrder srcLang texts rs = some out ∧
        out.length = texts.length ∧
        (∀ p ∈ texts.zip out, (pyStrip p.1).isEmpty = true →
          p.2 = blankResponse srcLang) ∧
        ((texts.zip out).filter (fun p => !(pyStrip p.1).isEmpty)).map
          (fun p => p.2) = rs := by
  intro texts
  induction texts with
  | nil =>
    intro rs h
    have hrs : rs = [] := List.length_eq_zero.mp (by simpa using h)
    subst hrs
    exact ⟨[], rfl, rfl, by simp, by simp⟩
  | cons t ts ih =>
    intro rs h
    by_cases hb : (pyStrip t).isEmpty = true
    · have h' : rs.length = (ts.filter (fun t => !(pyStrip t).isEmpty)).length := by
        simpa [List.filter_cons, hb] using h
      obtain ⟨out, ho, hlen, hblank, hsel⟩ := ih rs h'
      refine ⟨blankResponse srcLang :: out, ?_, ?_, ?_, ?_⟩
      · simp [restoreOrder, hb, ho]
      · simp [hlen]
      · intro p hp
        rw [List.zip_cons_cons] at hp
        rcases List.mem_cons.mp hp with hp | hp
        · subst hp; intro _; rfl
        · exact hblank p hp
      · simp only [List.zip_cons_cons, List.filter_cons, hb,
          Bool.not_true, Bool.false_eq_true, if_false]
        exact hsel
    · have hrs : ∃ r rs', rs = r :: rs' := by
        cases rs with
        | nil =>
          exfalso
          rw [List.filter_cons] at h
          simp [hb] at h
        | cons r rs' => exact ⟨r, rs', rfl⟩
      obtain ⟨r, rs', rfl⟩ := hrs
      have h' : rs'.length =
          (ts.filter (fun t => !(pyStrip t).isEmpty)).length := by
        rw [List.filter_cons] at h
        simp only [hb, Bool.not_false, if_true, List.length_cons] at h
        omega
      obtain ⟨out, ho, hlen, hblank, hsel⟩ := ih rs' h'
      refine ⟨r :: out, ?_, ?_, ?_, ?_⟩
      · simp [restoreOrder, hb, ho]
      · simp [hlen]
      · intro p hp
        rw [List.zip_cons_cons] at hp
        rcases List.mem_cons.mp hp with hp | hp
        · subst hp; intro hc; exact absurd hc hb
        · exact hblank p hp
      · simp only [List.zip_cons_cons, List.filter_cons, hb,
          Bool.not_false, if_true, List.map_cons]
        rw [hsel]

/-- C7: the batch translate call returns one response per input text, in
input order — blank inputs get success fillers, non-blank inputs receive,
in order, exactly the concatenated per-batch responses — and a failed
batch (cache miss, API not returning a parsed translation list) yields
one error-marked response per text of the batch rather than dropping
positions. -/
theorem C7_batch_positional (cache : BatchCache)
    (api : List PyStr → DeeplApiResult) (texts : List PyStr)
    (batchSize : Nat) (srcLang tgtLang : PyStr)
    (hapi : ∀ ts items, api ts = DeeplApiResult.ok items →
      items.length = ts.length)
    (hwf : ∀ p ∈ cache, p.2.length = p.1.2.2.length) :
    (∃ out,
      (translateBatchAsync cache api texts batchSize srcLang tgtLang).1 =
        some out ∧
      out.length = texts.length ∧
      (∀ p ∈ texts.zip out, (pyStrip p.1).isEmpty = true →
        p.2 = blankResponse srcLang) ∧
      ((texts.zip out).filter (fun p => !(pyStrip p.1).isEmpty)).map
          (fun p => p.2) =
        (allBatchResults cache api (chunks batchSize (nonEmptyOf texts))
          srcLang tgtLang).1) ∧
    (∀ (c : BatchCache) (b : List (Nat × PyStr)),
      lookupBatch c (srcLang, tgtLang, b.map (·.2)) = none →
      (∀ items, api (b.map (·.2)) ≠ DeeplApiResult.ok items) →
      (translateBatch c api b srcLang tgtLang).1.length = b.length ∧
      ∀ r ∈ (translateBatch c api b srcLang tgtLang).1,
        r.success = false ∧ r.error_message ≠ none) := by
  constructor
  · have hlenall : (allBatchResults cache api
        (chunks batchSize (nonEmptyOf texts)) srcLang tgtLang).1.length =
        (texts.filter (fun t => !(pyStrip t).isEmpty)).length := by
      obtain ⟨h1, _⟩ := allBatchResults_spec api srcLang tgtLang hapi
        (chunks batchSize (nonEmptyOf texts)) cache hwf
      rw [h1, ← List.length_flatten, chunks_flatten]
      exact length_filter_enumFrom (fun t => !(pyStrip t).isEmpty) 0 texts
    unfold translateBatchAsync
    by_cases he : (nonEmptyOf texts).isEmpty = true
    · simp only [he, if_true]
      have hfilter : texts.filter (fun t => !(pyStrip t).isEmpty) = [] := by
        apply List.length_eq_zero.mp
        rw [← length_filter_enumFrom (fun t => !(pyStrip t).isEmpty) 0 texts]
        simpa [nonEmptyOf] using congrArg List.length
          (List.isEmpty_iff.mp he)
      refine ⟨texts.map (fun _ => blankResponse srcLang), rfl, by simp,
        ?_, ?_⟩
      · intro p hp
        rw [show texts.zip (texts.map (fun _ => blankResponse srcLang)) =
            (texts.zip texts).map
              (Prod.map id (fun _ => blankResponse srcLang)) from
          List.zip_map_right _ _ _] at hp
        obtain ⟨q, _, hq⟩ := List.mem_map.mp hp
        intro _
        rw [← hq]
        rfl
      · have hchunks : nonEmptyOf texts = [] := List.isEmpty_iff.mp he
        rw [hchunks]
        have : chunks (α := Nat × PyStr) batchSize [] = [] := by
          simp [chunks]
        rw [this]
        simp only [allBatchResults]
        apply List.map_eq_nil_iff.mpr
        apply List.filter_eq_nil_iff.mpr
        intro p hp
        have hp1 := (List.of_mem_zip hp).1
        have := List.filter_eq_nil_iff.mp hfilter p.1 hp1
        simpa using this
    · simp only [he, if_false]
      obtain ⟨out, ho, hlen, hblank, hsel⟩ :=
        restoreOrder_spec srcLang texts _ hlenall
      exact ⟨out, by simpa using ho, hlen, hblank, hsel⟩
  · intro c b hlb hfail
    unfold translateBatch
    simp only [hlb]
    cases ha : api (b.map (·.2)) with
    | ok items => exact absurd ha (hfail items)
    | httpError st body =>
      unfold callDeeplApi
      rw [ha]
      refine ⟨by simp, ?_⟩
      intro r hr
      obtain ⟨q, _, hq⟩ := List.mem_map.mp hr
      rw [← hq]
      exact ⟨rfl, by simp⟩
    | networkError m =>
      unfold callDeeplApi
      rw [ha]
      refine ⟨by simp, ?_⟩
      intro r hr
      obtain ⟨q, _, hq⟩ := List.mem_map.mp hr
      rw [← hq]
      exact ⟨rfl, by simp⟩

/-- Witness for C7: a concrete three-text request (one blank) against an
echoing API, batch size two, empty cache. -/
theorem C7_batch_positional_witness :
    ∃ out,
      (translateBatchAsync []
        (fun ts => DeeplApiResult.ok (ts.map (fun t => (t, chars "EN"))))
        [chars "Hello", chars " ", chars "World"] 2
        (chars "EN") (chars "RU")).1 = some out ∧
      out.length = 3 :=
  match C7_batch_positional []
    (fun ts => DeeplApiResult.ok (ts.map (fun t => (t, chars "EN"))))
    [chars "Hello", chars " ", chars "World"] 2 (chars "EN") (chars "RU")
    (fun ts items h => by
      have : items = ts.map (fun t => (t, chars "EN")) := by
        cases h
        rfl
      rw [this]
      simp)
    (by simp) with
  | ⟨⟨out, ho, hlen, _, _⟩, _⟩ => ⟨out, ho, by rw [hlen]; rfl⟩
